import Mathlib

/-!
Verification of the datasnatch crawl-and-enrichment pipeline.

The definitions below are a shallow embedding of the Python sources:
  src/analyzer/profile_analyzer.py  (enrichment and scoring)
  src/scraper/profile_scraper.py    (recursive crawl)
  src/scraper/base_scraper.py       (profile parsing, fetch surface)

Numeric values (the uint8 pixel values and the float scores) are embedded
as rationals; Python dictionaries with optional keys are embedded as
structures with Option fields (outer Option = key absent, inner Option =
key present with value None); a Python function that can raise an
uncaught exception is embedded as a function into Except.
-/

namespace DataSnatch

/-! ## Data model (dicts built by base_scraper.parse_profile and
profile_analyzer's analyze_* functions) -/

/-- Base profile record as produced by BaseScraper.parse_profile: every key
is present, string-valued fields may hold None.  Outer Option models key
presence (analyze_profile tests membership with the in operator), inner
Option models a None value. -/
structure Profile where
  name : Option (Option String)
  phone : Option (Option String)
  location : Option (Option String)
  images : Option (List String)
deriving DecidableEq

/-- Result dict of ProfileAnalyzer.analyze_images. -/
structure ImageAnalysis where
  face_detected : Bool
  face_encodings : List (List ℚ)
  image_quality : List ℚ
  reverse_image_results : List String
deriving DecidableEq

/-- Result dict of ProfileAnalyzer.analyze_phone. -/
structure PhoneAnalysis where
  is_valid : Bool
  carrier : Option String
  location : Option String
  associated_names : List String
  associated_profiles : List String
deriving DecidableEq

/-- Result dict of ProfileAnalyzer.analyze_location. -/
structure LocationAnalysis where
  is_valid : Bool
  coordinates : Option (ℚ × ℚ)
  associated_profiles : List String
deriving DecidableEq

/-- The enriched profile: the base record plus the keys added by
ProfileAnalyzer.analyze_profile. -/
structure EnrichedProfile extends Profile where
  image_analysis : Option ImageAnalysis
  phone_analysis : Option PhoneAnalysis
  location_analysis : Option LocationAnalysis
  authenticity_score : Option ℚ
deriving DecidableEq

/-! ## Authenticity scoring (calculate_authenticity_score) -/

/-- Truthiness of profile.get(field) for a string-valued field: the key is
present, the value is not None and not the empty string. -/
def truthy_opt_str : Option (Option String) → Bool
  | some (some s) => !s.isEmpty
  | _ => false

/-- Truthiness of profile.get(images): key present and list non-empty. -/
def truthy_images : Option (List String) → Bool
  | some l => !l.isEmpty
  | none => false

/-- profile.get(image_analysis, empty).get(face_detected) truthiness. -/
def face_detected_of (p : EnrichedProfile) : Bool :=
  match p.image_analysis with
  | some a => a.face_detected
  | none => false

/-- profile.get(phone_analysis, empty).get(is_valid) truthiness. -/
def phone_valid_of (p : EnrichedProfile) : Bool :=
  match p.phone_analysis with
  | some a => a.is_valid
  | none => false

/-- profile.get(location_analysis, empty).get(is_valid) truthiness. -/
def location_valid_of (p : EnrichedProfile) : Bool :=
  match p.location_analysis with
  | some a => a.is_valid
  | none => false

/-- profile.get(image_analysis, empty).get(image_quality, empty list). -/
def image_qualities_of (p : EnrichedProfile) : List ℚ :=
  match p.image_analysis with
  | some a => a.image_quality
  | none => []

/-- The completeness fraction of calculate_authenticity_score: the number
of truthy fields among name, phone, location, images divided by 4. -/
def completeness_of (p : EnrichedProfile) : ℚ :=
  ((if truthy_opt_str p.name then (1 : ℚ) else 0)
    + (if truthy_opt_str p.phone then (1 : ℚ) else 0)
    + (if truthy_opt_str p.location then (1 : ℚ) else 0)
    + (if truthy_images p.images then (1 : ℚ) else 0)) / 4

/-- ProfileAnalyzer.calculate_authenticity_score, lines 128-161: weighted
sum of the five signals, clamped to at most 1.0.  The Python float weights
0.3, 0.2, 0.2, 0.15, 0.15 are the rationals 3/10, 2/10, 2/10, 3/20, 3/20. -/
def calculate_authenticity_score (p : EnrichedProfile) : ℚ :=
  min 1 ((if face_detected_of p then (3 : ℚ) / 10 else 0)
    + (if phone_valid_of p then (2 : ℚ) / 10 else 0)
    + (if location_valid_of p then (2 : ℚ) / 10 else 0)
    + (if !(image_qualities_of p).isEmpty then
        ((image_qualities_of p).sum / ((image_qualities_of p).length : ℚ)) * (3 / 20) else 0)
    + completeness_of p * (3 / 20))

/-- A concrete fully-complete, fully-valid enriched profile used to
instantiate scoring facts. -/
def perfect_profile : EnrichedProfile :=
  { name := some (some "Jane")
    phone := some (some "555-123-4567")
    location := some (some "Springfield")
    images := some ["http://img/1.jpg"]
    image_analysis := some { face_detected := true, face_encodings := [[1]],
                             image_quality := [1], reverse_image_results := [] }
    phone_analysis := some { is_valid := true, carrier := none, location := none,
                             associated_names := [], associated_profiles := [] }
    location_analysis := some { is_valid := true, coordinates := none,
                                associated_profiles := [] }
    authenticity_score := none }

/-! ## Image quality assessment (assess_image_quality)

An image is embedded as a rectangular matrix of pixels; a BGR pixel is a
triple of channel values, nominally in [0,255].  cv2.cvtColor BGR-to-GRAY
is the luminance combination 0.299 R + 0.587 G + 0.114 B; cv2.Laplacian
with the default aperture is the 5-point stencil with BORDER_REFLECT_101
border handling; numpy var is the population variance and numpy mean the
arithmetic mean over all entries. -/

/-- Grayscale conversion of one BGR pixel (luminance weights). -/
def bgr_to_gray_pixel : ℚ × ℚ × ℚ → ℚ
  | (b, g, r) => (299 * r + 587 * g + 114 * b) / 1000

/-- cv2.cvtColor(image, COLOR_BGR2GRAY), pixelwise. -/
def bgr_to_gray (img : List (List (ℚ × ℚ × ℚ))) : List (List ℚ) :=
  img.map (fun row => row.map bgr_to_gray_pixel)

/-- OpenCV BORDER_REFLECT_101 index folding for one out-of-range step:
index -1 maps to 1 and index len maps to len-2 (a length-1 axis maps
everything to 0, as OpenCV borderInterpolate does). -/
def reflect101 (len : Nat) (p : Int) : Nat :=
  if len ≤ 1 then 0
  else if p < 0 then (-p).toNat
  else if (len : Int) ≤ p then (2 * (len : Int) - 2 - p).toNat
  else p.toNat

/-- Pixel lookup with reflected border indices. -/
def getPix (g : List (List ℚ)) (i j : Int) : ℚ :=
  let row := g.getD (reflect101 g.length i) []
  row.getD (reflect101 row.length j) 0

/-- One entry of the discrete Laplacian (5-point stencil). -/
def lapAt (g : List (List ℚ)) (i j : Nat) : ℚ :=
  getPix g ((i : Int) - 1) (j : Int) + getPix g ((i : Int) + 1) (j : Int)
    + getPix g (i : Int) ((j : Int) - 1) + getPix g (i : Int) ((j : Int) + 1)
    - 4 * getPix g (i : Int) (j : Int)

/-- cv2.Laplacian(gray, CV_64F): the full Laplacian response matrix. -/
def laplacian (g : List (List ℚ)) : List (List ℚ) :=
  (List.range g.length).map (fun i =>
    (List.range (g.headD []).length).map (fun j => lapAt g i j))

/-- All entries of a matrix, row-major (numpy flattening order). -/
def matElems (g : List (List ℚ)) : List ℚ := g.flatten

/-- numpy mean over all entries. -/
def matMean (g : List (List ℚ)) : ℚ :=
  (matElems g).sum / ((matElems g).length : ℚ)

/-- numpy var (population variance) over all entries. -/
def matVar (g : List (List ℚ)) : ℚ :=
  ((matElems g).map (fun x => (x - matMean g) ^ 2)).sum / ((matElems g).length : ℚ)

/-- An image cv2 can process: non-empty and rectangular.  On anything else
cv2.cvtColor raises, which assess_image_quality catches. -/
def validImage (img : List (List (ℚ × ℚ × ℚ))) : Bool :=
  !img.isEmpty && !(img.headD []).isEmpty
    && img.all (fun row => row.length == (img.headD []).length)

/-- ProfileAnalyzer.assess_image_quality, lines 187-205: the average of a
sharpness score min(1, laplacian-variance/500) and a brightness score
min(1, mean-gray/255); 0.0 when processing raises. -/
def assess_image_quality (img : List (List (ℚ × ℚ × ℚ))) : ℚ :=
  if validImage img then
    (min 1 (matVar (laplacian (bgr_to_gray img)) / 500)
      + min 1 (matMean (bgr_to_gray img) / 255)) / 2
  else 0

/-- A fully uniform gray BGR image of value v. -/
def uniformBGR (m n : Nat) (v : ℚ) : List (List (ℚ × ℚ × ℚ)) :=
  List.replicate m (List.replicate n (v, v, v))

/-! ## Enrichment branches (analyze_images, analyze_phone,
analyze_location, analyze_profile)

The per-image primitives are parameters of the embedding: download models
download_image (an exception inside it is caught there, so it returns
Option), detect models detect_face (errors are caught there and yield
none), assess models assess_image_quality (total; 0 on error).  Img is
the type of decoded images.  The phone regex is the parameter matchFn.
A Python function whose body can raise an uncaught exception is embedded
into Except String. -/

/-- ProfileAnalyzer.reverse_image_search: placeholder, returns the empty
list whether or not APIs are enabled. -/
def reverse_image_search (_useApis : Bool) (_url : String) : List String := []

/-- ProfileAnalyzer.get_carrier_info: placeholder, returns None. -/
def get_carrier_info (_useApis : Bool) (_phone : String) : Option String := none

/-- ProfileAnalyzer.search_phone_online: placeholder, returns empty names
and profiles. -/
def search_phone_online (_useApis : Bool) (_phone : String) :
    List String × List String := ([], [])

/-- ProfileAnalyzer.geocode_location: placeholder, returns None (the
location value, possibly Python None, is never inspected). -/
def geocode_location (_useApis : Bool) (_loc : Option String) :
    Option (ℚ × ℚ) := none

/-- ProfileAnalyzer.search_nearby_profiles: placeholder, returns []. -/
def search_nearby_profiles (_useApis : Bool) (_c : ℚ × ℚ) : List String := []

/-- Lines 64-67 of analyze_images: face detection on a downloaded image;
when an encoding is found, the flag is set and the encoding appended. -/
def face_update (Img : Type) (detect : Img → Option (List ℚ))
    (a : ImageAnalysis) (img : Img) : ImageAnalysis :=
  match detect img with
  | some enc => { a with face_detected := true,
                         face_encodings := a.face_encodings ++ [enc] }
  | none => a

/-- Lines 69-71 of analyze_images: a quality score is appended for every
successfully downloaded image. -/
def quality_update (Img : Type) (assess : Img → ℚ)
    (a : ImageAnalysis) (img : Img) : ImageAnalysis :=
  { a with image_quality := a.image_quality ++ [assess img] }

/-- Lines 73-76 of analyze_images: reverse image search results are
appended only when APIs are enabled (the provider is a stub). -/
def reverse_update (useApis : Bool) (a : ImageAnalysis) (url : String) :
    ImageAnalysis :=
  if useApis then
    { a with reverse_image_results :=
        a.reverse_image_results ++ reverse_image_search useApis url }
  else a

/-- The body of the per-URL loop of analyze_images, lines 58-79: a failed
download contributes nothing (the per-iteration exception handler absorbs
the failure); a successful download runs face detection, quality
assessment, and optionally reverse search, in that order. -/
def analyze_images_step (Img : Type) (useApis : Bool) (download : String → Option Img)
    (detect : Img → Option (List ℚ)) (assess : Img → ℚ)
    (a : ImageAnalysis) (url : String) : ImageAnalysis :=
  match download url with
  | none => a
  | some img =>
    reverse_update useApis (quality_update Img assess (face_update Img detect a img) img) url

/-- The per-URL loop of analyze_images. -/
def analyze_images_loop (Img : Type) (useApis : Bool) (download : String → Option Img)
    (detect : Img → Option (List ℚ)) (assess : Img → ℚ) :
    List String → ImageAnalysis → ImageAnalysis
  | [], a => a
  | url :: rest, a =>
    analyze_images_loop Img useApis download detect assess rest
      (analyze_images_step Img useApis download detect assess a url)

/-- ProfileAnalyzer.analyze_images, lines 50-81. -/
def analyze_images (Img : Type) (useApis : Bool) (download : String → Option Img)
    (detect : Img → Option (List ℚ)) (assess : Img → ℚ)
    (image_urls : List String) : ImageAnalysis :=
  analyze_images_loop Img useApis download detect assess image_urls
    { face_detected := false, face_encodings := [], image_quality := [],
      reverse_image_results := [] }

/-- ProfileAnalyzer.analyze_phone, lines 83-106.  The argument is the
phone value from the record, which may be Python None; re.Pattern.match
raises TypeError on None, and analyze_phone has no handler, so the
exception propagates (Except.error). -/
def analyze_phone (matchFn : String → Bool) (useApis : Bool) :
    Option String → Except String PhoneAnalysis
  | none => Except.error "TypeError: expected string or bytes-like object"
  | some s =>
    let analysis : PhoneAnalysis :=
      { is_valid := false, carrier := none, location := none,
        associated_names := [], associated_profiles := [] }
    if matchFn s then
      let analysis := { analysis with is_valid := true }
      if useApis then
        let analysis := { analysis with carrier := get_carrier_info useApis s }
        let assoc := search_phone_online useApis s
        Except.ok { analysis with associated_names := assoc.1,
                                  associated_profiles := assoc.2 }
      else Except.ok analysis
    else Except.ok analysis

/-- ProfileAnalyzer.analyze_location, lines 108-126: with the geocoding
placeholder returning None, is_valid remains false and no coordinates are
set; the location value is never inspected, so a None location cannot
raise here. -/
def analyze_location (useApis : Bool) (loc : Option String) : LocationAnalysis :=
  let analysis : LocationAnalysis :=
    { is_valid := false, coordinates := none, associated_profiles := [] }
  if useApis then
    match geocode_location useApis loc with
    | some c => { analysis with is_valid := true, coordinates := some c,
                                associated_profiles := search_nearby_profiles useApis c }
    | none => analysis
  else analysis

/-- ProfileAnalyzer.analyze_profile, lines 30-48: copies the record, runs
the image branch when the images key is present, the phone branch when
the phone key is present (this branch can raise and has no handler), the
location branch when the location key is present, then records the
authenticity score computed from the enriched dict. -/
def analyze_profile (Img : Type) (useApis : Bool) (download : String → Option Img)
    (detect : Img → Option (List ℚ)) (assess : Img → ℚ) (matchFn : String → Bool)
    (p : Profile) : Except String EnrichedProfile :=
  let ia : Option ImageAnalysis :=
    p.images.map (fun urls => analyze_images Img useApis download detect assess urls)
  let phoneStep : Except String (Option PhoneAnalysis) :=
    match p.phone with
    | none => Except.ok none
    | some v => (analyze_phone matchFn useApis v).map some
  match phoneStep with
  | Except.error e => Except.error e
  | Except.ok pa =>
    let la : Option LocationAnalysis :=
      p.location.map (fun v => analyze_location useApis v)
    let ep : EnrichedProfile :=
      { toProfile := p, image_analysis := ia, phone_analysis := pa,
        location_analysis := la, authenticity_score := none }
    Except.ok { ep with authenticity_score := some (calculate_authenticity_score ep) }

/-- A record as parse_profile produces for a page with no phone markup:
the phone key is present and its value is None. -/
def none_phone_profile : Profile :=
  { name := some (some "Jane"), phone := some none,
    location := some (some "Springfield"), images := some [] }

/-! ## Crawler (ProfileScraper._scrape_state and its inner crawl_page)

The crawl is embedded over an abstract web: fetch models
get_page_content plus BeautifulSoup parsing (none = the fetch or parse
raised, which the per-branch except absorbs); a fetched page carries its
outbound anchor hrefs in document order and the ProfileRecord that
parse_profile would produce from its content (type parameter for the
record type).  The state carries the visited set, the trace of
get_page_content calls in call order, and the accumulated profiles.
Recursion depth in the source is bounded because depth increases by one
per recursive call and the guard stops at maxDepth; the fuel maxDepth+2
used by scrape_state is therefore never exhausted. -/

/-- Python str.startswith. -/
def pyStartswith (s pre : String) : Bool :=
  pre.toList.isPrefixOf s.toList

/-- Python str.rstrip with slash argument. -/
def rstripSlashes (s : String) : String :=
  String.mk ((s.toList.reverse.dropWhile (fun c => c = '/')).reverse)

/-- Python str.lstrip with slash argument. -/
def lstripSlashes (s : String) : String :=
  String.mk (s.toList.dropWhile (fun c => c = '/'))

/-- Link resolution of crawl_page, lines 75-77: an href that does not
start with http is joined naively onto the base URL. -/
def resolveHref (baseUrl href : String) : String :=
  if pyStartswith href "http" then href
  else rstripSlashes baseUrl ++ "/" ++ lstripSlashes href

/-- Python substring membership test (the in operator) on char lists. -/
def containsSub (pat : List Char) : List Char → Bool
  | [] => pat.isEmpty
  | c :: t => pat.isPrefixOf (c :: t) || containsSub pat t

/-- Line 69: the profile-page heuristic, substring profile in url.lower(). -/
def isProfileUrl (url : String) : Bool :=
  containsSub "profile".toList (url.toList.map Char.toLower)

/-- A fetched and parsed page: its anchor hrefs in document order, and
the ProfileRecord parse_profile yields from its content. -/
structure Page (π : Type) where
  links : List String
  profile : π

/-- The abstract web behind get_page_content: none models a fetch or
parse failure (absorbed by the branch-level except in crawl_page). -/
structure Web (π : Type) where
  fetch : String → Option (Page π)

/-- Mutable state of one _scrape_state invocation: the visited_urls set
(insertion order), the trace of get_page_content calls, and the profiles
list returned by _scrape_state. -/
structure CrawlState (π : Type) where
  visited : List String
  fetched : List String
  profiles : List π
deriving DecidableEq

/-- ProfileScraper crawl_page, lines 60-81: the guard returns with no
side effect when depth exceeds max_depth or the URL was already visited;
otherwise the URL joins visited before the fetch, the fetch is traced, a
fetch failure ends the branch, a profile page appends its record, and
each anchor is resolved, filtered by a string-prefix test against the
base URL, and recursed into at depth+1.  Fuel only bounds the recursion
formally; see scrape_state. -/
def crawl_page {π : Type} (w : Web π) (baseUrl : String) (maxDepth : Nat) :
    Nat → String → Nat → CrawlState π → CrawlState π
  | 0, _, _, st => st
  | fuel + 1, url, depth, st =>
    if maxDepth < depth ∨ url ∈ st.visited then st
    else
      let st1 : CrawlState π :=
        { st with visited := st.visited ++ [url], fetched := st.fetched ++ [url] }
      match w.fetch url with
      | none => st1
      | some page =>
        let st2 : CrawlState π :=
          if isProfileUrl url then { st1 with profiles := st1.profiles ++ [page.profile] }
          else st1
        page.links.foldl (fun s href =>
          if pyStartswith (resolveHref baseUrl href) baseUrl = true
              ∧ resolveHref baseUrl href ∉ s.visited then
            crawl_page w baseUrl maxDepth fuel (resolveHref baseUrl href) (depth + 1) s
          else s) st2

/-- ProfileScraper._scrape_state, lines 55-87: fresh state per
invocation, crawl from the base URL at depth 0.  Fuel maxDepth+2 never
runs out: a call at depth k holds fuel maxDepth+2-k, and calls at depth
maxDepth+1 return through the guard. -/
def scrape_state {π : Type} (w : Web π) (baseUrl : String) (maxDepth : Nat) :
    CrawlState π :=
  crawl_page w baseUrl maxDepth (maxDepth + 2) baseUrl 0 ⟨[], [], []⟩

/-- The linear link graph A -> B -> C -> D of the depth-bound test. -/
def webC2 : Web String :=
  ⟨fun u =>
    if u = "http://s" then some ⟨["http://s/b"], u⟩
    else if u = "http://s/b" then some ⟨["http://s/b/c"], u⟩
    else if u = "http://s/b/c" then some ⟨["http://s/b/c/d"], u⟩
    else if u = "http://s/b/c/d" then some ⟨[], u⟩
    else none⟩

/-- A web whose seed page links to a foreign-origin URL whose string form
extends the seed. -/
def webC5 : Web String :=
  ⟨fun u =>
    if u = "http://a.com" then some ⟨["http://a.com.evil.net/x"], u⟩
    else if u = "http://a.com.evil.net/x" then some ⟨[], u⟩
    else none⟩

/-- A web whose seed page links to the same path with and without a
fragment. -/
def webC6 : Web String :=
  ⟨fun u =>
    if u = "http://s" then some ⟨["http://s/p", "http://s/p#frag"], u⟩
    else some ⟨[], u⟩⟩

/-- Split a character list at the first scheme separator. -/
def breakAtSep : List Char → Option (List Char × List Char)
  | [] => none
  | c :: t =>
    if (':' :: '/' :: '/' :: []).isPrefixOf (c :: t) then some ([], t.drop 2)
    else
      match breakAtSep t with
      | some (pre, post) => some (c :: pre, post)
      | none => none

/-- Modelled from the spec: the origin of a URL is its scheme plus host
(the part of a scheme://host/path URL before the first slash after the
scheme separator).  The source has no origin computation; this definition
follows the spec wording and is used only to compare the source's
string-prefix filter against the spec's same-origin filter. -/
def spec_origin (u : String) : String :=
  match breakAtSep u.toList with
  | some (scheme, rest) =>
      String.mk (scheme ++ (':' :: '/' :: '/' :: []) ++ rest.takeWhile (fun c => c ≠ '/'))
  | none => u

end DataSnatch

namespace DataSnatch

/-- foldl preserves any invariant its step function preserves. -/
theorem foldl_preserve {α σ : Type} (P : σ → Prop) (f : σ → α → σ)
    (h : ∀ s a, P s → P (f s a)) :
    ∀ (l : List α) (s : σ), P s → P (l.foldl f s) := by
  intro l
  induction l with
  | nil => intro s hs; simpa using hs
  | cons a t ih =>
    intro s hs
    rw [List.foldl_cons]
    exact ih _ (h s a hs)

/-- The visited set only grows along the crawl. -/
theorem crawl_page_visited_mono {π : Type} (w : Web π) (b : String) (maxD : Nat) :
    ∀ (fuel : Nat) (url : String) (depth : Nat) (st : CrawlState π),
      st.visited ⊆ (crawl_page w b maxD fuel url depth st).visited := by
  intro fuel
  induction fuel with
  | zero => intro url depth st; exact List.Subset.refl _
  | succ fuel ih =>
    intro url depth st
    simp only [crawl_page]
    by_cases hg : maxD < depth ∨ url ∈ st.visited
    · rw [if_pos hg]
      exact List.Subset.refl _
    · rw [if_neg hg]
      cases hf : w.fetch url with
      | none => exact List.subset_append_left _ _
      | some page =>
        refine foldl_preserve (fun s : CrawlState π => st.visited ⊆ s.visited)
          _ ?_ page.links _ ?_
        · intro s href hs
          by_cases hc : pyStartswith (resolveHref b href) b = true
              ∧ resolveHref b href ∉ s.visited
          · rw [if_pos hc]
            exact hs.trans (ih (resolveHref b href) (depth + 1) s)
          · rw [if_neg hc]
            exact hs
        · by_cases hp : isProfileUrl url = true
          · rw [if_pos hp]
            exact List.subset_append_left _ _
          · rw [if_neg hp]
            exact List.subset_append_left _ _

/-- The crawl keeps the fetch trace duplicate-free and inside the visited
set (URLs enter visited at commit time, before their fetch). -/
theorem crawl_page_fetch_inv {π : Type} (w : Web π) (b : String) (maxD : Nat) :
    ∀ (fuel : Nat) (url : String) (depth : Nat) (st : CrawlState π),
      st.fetched.Nodup → (∀ u ∈ st.fetched, u ∈ st.visited) →
      (crawl_page w b maxD fuel url depth st).fetched.Nodup
        ∧ ∀ u ∈ (crawl_page w b maxD fuel url depth st).fetched,
            u ∈ (crawl_page w b maxD fuel url depth st).visited := by
  intro fuel
  induction fuel with
  | zero => intro url depth st h1 h2; exact ⟨h1, h2⟩
  | succ fuel ih =>
    intro url depth st h1 h2
    simp only [crawl_page]
    by_cases hg : maxD < depth ∨ url ∈ st.visited
    · rw [if_pos hg]
      exact ⟨h1, h2⟩
    · rw [if_neg hg]
      push_neg at hg
      have hnf : url ∉ st.fetched := fun hmem => hg.2 (h2 url hmem)
      have h1' : (st.fetched ++ [url]).Nodup := by
        rw [List.nodup_append]
        refine ⟨h1, List.nodup_singleton _, ?_⟩
        intro x hx hx'
        rw [List.mem_singleton] at hx'
        exact hnf (hx' ▸ hx)
      have h2' : ∀ u ∈ st.fetched ++ [url], u ∈ st.visited ++ [url] := by
        intro u hu
        rcases List.mem_append.mp hu with h | h
        · exact List.mem_append.mpr (Or.inl (h2 u h))
        · exact List.mem_append.mpr (Or.inr h)
      cases hf : w.fetch url with
      | none => exact ⟨h1', h2'⟩
      | some page =>
        refine foldl_preserve
          (fun s : CrawlState π => s.fetched.Nodup ∧ ∀ u ∈ s.fetched, u ∈ s.visited)
          _ ?_ page.links _ ?_
        · intro s href hs
          by_cases hc : pyStartswith (resolveHref b href) b = true
              ∧ resolveHref b href ∉ s.visited
          · rw [if_pos hc]
            exact ih (resolveHref b href) (depth + 1) s hs.1 hs.2
          · rw [if_neg hc]
            exact hs
        · by_cases hp : isProfileUrl url = true
          · rw [if_pos hp]
            exact ⟨h1', h2'⟩
          · rw [if_neg hp]
            exact ⟨h1', h2'⟩

/-- A character list is a prefix of itself. -/
theorem isPrefixOf_self_char : ∀ (l : List Char), l.isPrefixOf l = true := by
  intro l
  induction l with
  | nil => rfl
  | cons c t ih => simp [List.isPrefixOf, ih]

/-- Every fetched URL extends the base URL as a string, provided the
entry URL does. -/
theorem crawl_page_fetched_prefix {π : Type} (w : Web π) (b : String) (maxD : Nat) :
    ∀ (fuel : Nat) (url : String) (depth : Nat) (st : CrawlState π),
      pyStartswith url b = true →
      (∀ u ∈ st.fetched, pyStartswith u b = true) →
      ∀ u ∈ (crawl_page w b maxD fuel url depth st).fetched,
        pyStartswith u b = true := by
  intro fuel
  induction fuel with
  | zero => intro url depth st _ hst; exact hst
  | succ fuel ih =>
    intro url depth st hurl hst
    simp only [crawl_page]
    by_cases hg : maxD < depth ∨ url ∈ st.visited
    · rw [if_pos hg]
      exact hst
    · rw [if_neg hg]
      have hst1 : ∀ u ∈ st.fetched ++ [url], pyStartswith u b = true := by
        intro u hu
        rcases List.mem_append.mp hu with h | h
        · exact hst u h
        · rw [List.mem_singleton] at h
          rw [h]
          exact hurl
      cases hf : w.fetch url with
      | none => exact hst1
      | some page =>
        refine foldl_preserve
          (fun s : CrawlState π => ∀ u ∈ s.fetched, pyStartswith u b = true)
          _ ?_ page.links _ ?_
        · intro s href hs
          by_cases hc : pyStartswith (resolveHref b href) b = true
              ∧ resolveHref b href ∉ s.visited
          · rw [if_pos hc]
            exact ih (resolveHref b href) (depth + 1) s hc.1 hs
          · rw [if_neg hc]
            exact hs
        · by_cases hp : isProfileUrl url = true
          · rw [if_pos hp]
            exact hst1
          · rw [if_neg hp]
            exact hst1

/-- Claim C2: the crawl never fetches at a depth beyond maxDepth — a call
of crawl_page at depth > maxDepth returns the state untouched — and on
the linear graph A -> B -> C -> D with maxDepth 2 the crawl from A
fetches exactly A, B, C and never D. -/
theorem crawl_depth_bound :
    (∀ (π : Type) (w : Web π) (b : String) (maxD fuel : Nat) (url : String)
      (depth : Nat) (st : CrawlState π), maxD < depth →
      crawl_page w b maxD fuel url depth st = st)
    ∧ (scrape_state webC2 "http://s" 2).fetched =
        ["http://s", "http://s/b", "http://s/b/c"]
    ∧ "http://s/b/c/d" ∉ (scrape_state webC2 "http://s" 2).fetched := by
  refine ⟨?_, by decide, by decide⟩
  intro π w b maxD fuel url depth st h
  cases fuel with
  | zero => rfl
  | succ fuel =>
    simp only [crawl_page]
    rw [if_pos (Or.inl h)]

/-- Witness for C2: the deep node D of the example graph lies at depth 3
with maxDepth 2, so a crawl_page call on it leaves the state unchanged. -/
theorem crawl_depth_bound_witness :
    crawl_page webC2 "http://s" 2 1 "http://s/b/c/d" 3
        (⟨["http://s"], ["http://s"], []⟩ : CrawlState String) =
      ⟨["http://s"], ["http://s"], []⟩ :=
  crawl_depth_bound.1 String webC2 "http://s" 2 1 "http://s/b/c/d" 3
    ⟨["http://s"], ["http://s"], []⟩ (by decide)

/-- Claim C3: within one crawl invocation the visited set only grows, a
URL enters it at commit time (every traced fetch is of a URL in the
visited set), and no URL is fetched twice (the trace of get_page_content
calls of a full crawl has no duplicates). -/
theorem crawl_no_duplicate_fetch :
    (∀ (π : Type) (w : Web π) (b : String) (maxD fuel : Nat) (url : String)
      (depth : Nat) (st : CrawlState π),
      st.visited ⊆ (crawl_page w b maxD fuel url depth st).visited)
    ∧ (∀ (π : Type) (w : Web π) (b : String) (maxD : Nat),
        (scrape_state w b maxD).fetched.Nodup)
    ∧ (∀ (π : Type) (w : Web π) (b : String) (maxD : Nat),
        ∀ u ∈ (scrape_state w b maxD).fetched, u ∈ (scrape_state w b maxD).visited) := by
  refine ⟨?_, ?_, ?_⟩
  · intro π w b maxD fuel url depth st
    exact crawl_page_visited_mono w b maxD fuel url depth st
  · intro π w b maxD
    exact (crawl_page_fetch_inv w b maxD (maxD + 2) b 0 ⟨[], [], []⟩
      List.nodup_nil (by simp)).1
  · intro π w b maxD
    exact (crawl_page_fetch_inv w b maxD (maxD + 2) b 0 ⟨[], [], []⟩
      List.nodup_nil (by simp)).2

/-- Witness for C3 on the concrete example web. -/
theorem crawl_no_duplicate_fetch_witness :
    (⟨[], [], []⟩ : CrawlState String).visited ⊆
        (crawl_page webC2 "http://s" 2 4 "http://s" 0 ⟨[], [], []⟩).visited
      ∧ (scrape_state webC2 "http://s" 2).fetched.Nodup
      ∧ "http://s" ∈ (scrape_state webC2 "http://s" 2).visited :=
  ⟨crawl_no_duplicate_fetch.1 String webC2 "http://s" 2 4 "http://s" 0 ⟨[], [], []⟩,
    crawl_no_duplicate_fetch.2.1 String webC2 "http://s" 2,
    crawl_no_duplicate_fetch.2.2 String webC2 "http://s" 2 "http://s" (by decide)⟩

/-- Claim C5 counterexample: the crawl's in-scope test is a string-prefix
check against the base URL, not an origin check: from seed http://a.com a
link to http://a.com.evil.net/x passes the filter and is fetched, though
its origin (scheme+host, per the spec's definition) differs from the
seed's. -/
theorem crawl_cross_origin_fetch :
    "http://a.com.evil.net/x" ∈ (scrape_state webC5 "http://a.com" 1).fetched
      ∧ spec_origin "http://a.com.evil.net/x" ≠ spec_origin "http://a.com" := by
  decide

/-- Claim C5 (amended): relative links are resolved by naive string
joining onto the base URL and followed only when the result extends the
base URL as a string; hence every fetched URL has the base URL as a
string prefix - but this is weaker than same-origin, so a foreign-origin
URL whose string form extends the seed can be fetched. -/
theorem crawl_fetched_prefix_of_base :
    ∀ (π : Type) (w : Web π) (b : String) (maxD : Nat),
      ∀ u ∈ (scrape_state w b maxD).fetched, pyStartswith u b = true := by
  intro π w b maxD
  exact crawl_page_fetched_prefix w b maxD (maxD + 2) b 0 ⟨[], [], []⟩
    (isPrefixOf_self_char b.toList) (by simp)

/-- Witness for C5 (amended): the foreign-origin URL fetched in the
counterexample indeed extends the base URL as a string. -/
theorem crawl_fetched_prefix_of_base_witness :
    pyStartswith "http://a.com.evil.net/x" "http://a.com" = true :=
  crawl_fetched_prefix_of_base String webC5 "http://a.com" 1
    "http://a.com.evil.net/x" (by decide)

/-- Claim C6 counterexample: the visited check uses the raw URL string -
no fragment stripping, no trailing-slash normalization - so two URLs
differing only in a fragment are both fetched in one crawl. -/
theorem crawl_fragment_both_fetched :
    "http://s/p" ∈ (scrape_state webC6 "http://s" 1).fetched
      ∧ "http://s/p#frag" ∈ (scrape_state webC6 "http://s" 1).fetched := by
  decide

/-- Claim C6 (amended): the visit decision operates on the raw URL
string: it returns with no side effect when the depth exceeds maxDepth or
the exact URL string was already visited; URLs differing only in fragment
or trailing slash count as distinct and may each be fetched. -/
theorem frontier_raw_string_guard :
    ∀ (π : Type) (w : Web π) (b : String) (maxD fuel : Nat) (url : String)
      (depth : Nat) (st : CrawlState π),
      (maxD < depth ∨ url ∈ st.visited) →
      crawl_page w b maxD fuel url depth st = st := by
  intro π w b maxD fuel url depth st h
  cases fuel with
  | zero => rfl
  | succ fuel =>
    simp only [crawl_page]
    rw [if_pos h]

/-- Witness for C6 (amended): a call on an already-visited URL leaves the
state unchanged. -/
theorem frontier_raw_string_guard_witness :
    crawl_page webC6 "http://s" 1 2 "http://s/p" 1
        (⟨["http://s/p"], ["http://s/p"], []⟩ : CrawlState String) =
      ⟨["http://s/p"], ["http://s/p"], []⟩ :=
  frontier_raw_string_guard String webC6 "http://s" 1 2 "http://s/p" 1
    ⟨["http://s/p"], ["http://s/p"], []⟩ (Or.inr (by decide))

/-- Claim C9: with a fixed web (deterministic fetch and parse fixtures),
two pipeline runs over the same seed produce equal profile lists and
equal fetch traces: the crawl state (the visited set in particular) is
created fresh inside scrape_state, mirroring visited_urls being local to
_scrape_state, so nothing persists between runs. -/
theorem pipeline_deterministic :
    ∀ (π : Type) (w : Web π) (b : String) (maxD : Nat) (r1 r2 : CrawlState π),
      r1 = scrape_state w b maxD → r2 = scrape_state w b maxD →
      r1.profiles = r2.profiles ∧ r1.fetched = r2.fetched := by
  intro π w b maxD r1 r2 h1 h2
  rw [h1, h2]
  exact ⟨rfl, rfl⟩

/-- Witness for C9: two runs on the example web. -/
theorem pipeline_deterministic_witness :
    (scrape_state webC2 "http://s" 2).profiles =
        (scrape_state webC2 "http://s" 2).profiles
      ∧ (scrape_state webC2 "http://s" 2).fetched =
        (scrape_state webC2 "http://s" 2).fetched :=
  pipeline_deterministic String webC2 "http://s" 2 _ _ rfl rfl

end DataSnatch

namespace DataSnatch

/-! ## Theorems -/

/-- Claim C1: calculate_authenticity_score is min(1, s) where s is the sum
of 0.30 for a detected face, 0.20 for a valid phone, 0.20 for a valid
location, 0.15 times the mean recorded image quality (0 when no image was
analyzed), and 0.15 times the fraction of the four completeness fields
that are present and non-empty; the result lies in [0,1] (given that the
recorded per-image quality scores are nonnegative, as those produced by
assess_image_quality are); and a record with all four completeness fields,
valid phone, a detected face, mean image quality 1 and valid location
scores exactly 1. -/
theorem authenticity_score_weighted_sum :
    (∀ p : EnrichedProfile,
      calculate_authenticity_score p =
        min 1 ((if face_detected_of p then (1 : ℚ) else 0) * (3 / 10)
          + (if phone_valid_of p then (1 : ℚ) else 0) * (2 / 10)
          + (if location_valid_of p then (1 : ℚ) else 0) * (2 / 10)
          + (if (image_qualities_of p).isEmpty then 0 else
              (image_qualities_of p).sum / ((image_qualities_of p).length : ℚ)) * (3 / 20)
          + completeness_of p * (3 / 20)))
    ∧ (∀ p : EnrichedProfile, (∀ q ∈ image_qualities_of p, 0 ≤ q) →
        0 ≤ calculate_authenticity_score p ∧ calculate_authenticity_score p ≤ 1)
    ∧ (∀ p : EnrichedProfile,
        truthy_opt_str p.name = true → truthy_opt_str p.phone = true →
        truthy_opt_str p.location = true → truthy_images p.images = true →
        phone_valid_of p = true → face_detected_of p = true →
        location_valid_of p = true → (image_qualities_of p).isEmpty = false →
        (image_qualities_of p).sum / ((image_qualities_of p).length : ℚ) = 1 →
        calculate_authenticity_score p = 1) := by
  refine ⟨?_, ?_, ?_⟩
  · intro p
    unfold calculate_authenticity_score
    cases h1 : face_detected_of p <;> cases h2 : phone_valid_of p <;>
      cases h3 : location_valid_of p <;> cases h4 : (image_qualities_of p).isEmpty <;>
      simp [h1, h2, h3, h4] <;> ring
  · intro p hq
    unfold calculate_authenticity_score
    have h1 : (0 : ℚ) ≤ if face_detected_of p then (3 : ℚ) / 10 else 0 := by positivity
    have h2 : (0 : ℚ) ≤ if phone_valid_of p then (2 : ℚ) / 10 else 0 := by positivity
    have h3 : (0 : ℚ) ≤ if location_valid_of p then (2 : ℚ) / 10 else 0 := by positivity
    have h4 : (0 : ℚ) ≤ if !(image_qualities_of p).isEmpty then
        ((image_qualities_of p).sum / ((image_qualities_of p).length : ℚ)) * (3 / 20) else 0 := by
      cases h : (image_qualities_of p).isEmpty
      · simp only [h, Bool.not_false, if_pos]
        have hsum : 0 ≤ (image_qualities_of p).sum := List.sum_nonneg hq
        have hlen : (0 : ℚ) ≤ ((image_qualities_of p).length : ℚ) := by positivity
        positivity
      · simp [h]
    have h5 : (0 : ℚ) ≤ completeness_of p * (3 / 20) := by
      have hc : (0 : ℚ) ≤ completeness_of p := by
        unfold completeness_of
        have a1 : (0 : ℚ) ≤ if truthy_opt_str p.name then (1 : ℚ) else 0 := by positivity
        have a2 : (0 : ℚ) ≤ if truthy_opt_str p.phone then (1 : ℚ) else 0 := by positivity
        have a3 : (0 : ℚ) ≤ if truthy_opt_str p.location then (1 : ℚ) else 0 := by positivity
        have a4 : (0 : ℚ) ≤ if truthy_images p.images then (1 : ℚ) else 0 := by positivity
        linarith
      linarith
    exact ⟨le_min (by norm_num) (by linarith), min_le_left _ _⟩
  · intro p hn hp hl hi hpv hfd hlv hqe havg
    unfold calculate_authenticity_score completeness_of
    rw [hn, hp, hl, hi, hpv, hfd, hlv, hqe, havg]
    norm_num

/-- getD on a replicate within bounds returns the replicated element. -/
theorem replicate_getD {α : Type} (n i : Nat) (a d : α) (h : i < n) :
    (List.replicate n a).getD i d = a := by
  induction n generalizing i with
  | zero => omega
  | succ n ih =>
    cases i with
    | zero => simp [List.replicate_succ]
    | succ i =>
      simp only [List.replicate_succ, List.getD_cons_succ]
      exact ih i (by omega)

/-- Mapping a constant function yields a replicate. -/
theorem map_const_eq_replicate {α β : Type} (l : List α) (c : β) :
    l.map (fun _ => c) = List.replicate l.length c := by
  induction l with
  | nil => rfl
  | cons a t ih => simp [List.replicate_succ, ih]

/-- Pointwise-equal functions map lists equally. -/
theorem map_congr_mem {α β : Type} (l : List α) (f g : α → β)
    (h : ∀ a ∈ l, f a = g a) : l.map f = l.map g := by
  induction l with
  | nil => rfl
  | cons a t ih =>
    simp only [List.map_cons, h a (by simp)]
    rw [ih (fun x hx => h x (by simp [hx]))]

/-- Flattening a replicated replicate. -/
theorem flatten_replicate {α : Type} (m n : Nat) (a : α) :
    (List.replicate m (List.replicate n a)).flatten = List.replicate (m * n) a := by
  induction m with
  | zero => simp
  | succ m ih =>
    rw [List.replicate_succ, List.flatten_cons, ih,
      show (m + 1) * n = n + m * n by ring, List.replicate_add]

/-- Sum of a replicated rational. -/
theorem sum_replicate_rat (k : Nat) (v : ℚ) :
    (List.replicate k v).sum = (k : ℚ) * v := by
  induction k with
  | zero => simp
  | succ k ih =>
    rw [List.replicate_succ, List.sum_cons, ih]
    push_cast
    ring

/-- Mean of a uniform matrix is the uniform value. -/
theorem matMean_uniform (m n : Nat) (v : ℚ) (hm : 0 < m) (hn : 0 < n) :
    matMean (List.replicate m (List.replicate n v)) = v := by
  unfold matMean matElems
  rw [flatten_replicate, sum_replicate_rat, List.length_replicate]
  have hne : ((m * n : Nat) : ℚ) ≠ 0 := by
    have : m * n ≠ 0 := by positivity
    exact_mod_cast this
  exact mul_div_cancel_left₀ v hne

/-- Variance of an all-zero matrix is zero. -/
theorem matVar_uniform_zero (m n : Nat) :
    matVar (List.replicate m (List.replicate n (0 : ℚ))) = 0 := by
  unfold matVar matElems
  rw [flatten_replicate, List.map_replicate, List.length_replicate]
  have hmean : matMean (List.replicate m (List.replicate n (0 : ℚ))) = 0 := by
    unfold matMean matElems
    rw [flatten_replicate, sum_replicate_rat]
    simp
  rw [hmean]
  simp

/-- Reflect-101 index folding stays in range for one-step overshoots. -/
theorem reflect101_lt (len : Nat) (p : Int) (h0 : 0 < len) (h1 : -1 ≤ p)
    (h2 : p ≤ (len : Int)) : reflect101 len p < len := by
  unfold reflect101
  split_ifs <;> omega

/-- Every reflected lookup into a uniform matrix returns the value. -/
theorem getPix_uniform (m n : Nat) (v : ℚ) (i j : Int) (hm : 0 < m) (hn : 0 < n)
    (hi1 : -1 ≤ i) (hi2 : i ≤ (m : Int)) (hj1 : -1 ≤ j) (hj2 : j ≤ (n : Int)) :
    getPix (List.replicate m (List.replicate n v)) i j = v := by
  simp only [getPix, List.length_replicate]
  rw [replicate_getD m _ _ [] (reflect101_lt m i hm hi1 hi2), List.length_replicate,
    replicate_getD n _ _ 0 (reflect101_lt n j hn hj1 hj2)]

/-- The Laplacian stencil vanishes on a uniform matrix. -/
theorem lapAt_uniform (m n : Nat) (v : ℚ) (i j : Nat) (hi : i < m) (hj : j < n) :
    lapAt (List.replicate m (List.replicate n v)) i j = 0 := by
  have hm : 0 < m := by omega
  have hn : 0 < n := by omega
  unfold lapAt
  rw [getPix_uniform m n v _ _ hm hn (by omega) (by omega) (by omega) (by omega),
    getPix_uniform m n v _ _ hm hn (by omega) (by omega) (by omega) (by omega),
    getPix_uniform m n v _ _ hm hn (by omega) (by omega) (by omega) (by omega),
    getPix_uniform m n v _ _ hm hn (by omega) (by omega) (by omega) (by omega),
    getPix_uniform m n v _ _ hm hn (by omega) (by omega) (by omega) (by omega)]
  ring

/-- The Laplacian of a uniform matrix is the all-zero matrix. -/
theorem laplacian_uniform (m n : Nat) (v : ℚ) (hm : 0 < m) (hn : 0 < n) :
    laplacian (List.replicate m (List.replicate n v)) =
      List.replicate m (List.replicate n (0 : ℚ)) := by
  obtain ⟨m', rfl⟩ : ∃ m', m = m' + 1 := ⟨m - 1, by omega⟩
  unfold laplacian
  rw [List.length_replicate]
  have hhead : (List.replicate (m' + 1) (List.replicate n v)).headD [] =
      List.replicate n v := by
    rw [List.replicate_succ]
    rfl
  rw [hhead, List.length_replicate]
  have hrow : ∀ i ∈ List.range (m' + 1),
      ((List.range n).map (fun j => lapAt (List.replicate (m' + 1) (List.replicate n v)) i j))
        = List.replicate n (0 : ℚ) := by
    intro i hi
    rw [List.mem_range] at hi
    rw [map_congr_mem (List.range n) _ (fun _ => (0 : ℚ))
      (fun j hj => lapAt_uniform (m' + 1) n v i j hi (List.mem_range.mp hj))]
    rw [map_const_eq_replicate, List.length_range]
  rw [map_congr_mem (List.range (m' + 1)) _ (fun _ => List.replicate n (0 : ℚ)) hrow,
    map_const_eq_replicate, List.length_range]

/-- Witness for C1: the perfect profile satisfies every hypothesis and
scores exactly 1; its qualities are nonnegative so its score is in [0,1]. -/
theorem authenticity_score_weighted_sum_witness :
    calculate_authenticity_score perfect_profile = 1 ∧
      0 ≤ calculate_authenticity_score perfect_profile := by
  have hlist : image_qualities_of perfect_profile = [1] := rfl
  have havg : (image_qualities_of perfect_profile).sum /
      ((image_qualities_of perfect_profile).length : ℚ) = 1 := by
    rw [hlist]; norm_num
  refine ⟨authenticity_score_weighted_sum.2.2 perfect_profile
      rfl rfl rfl rfl rfl rfl rfl (by rw [hlist]; rfl) havg,
    (authenticity_score_weighted_sum.2.1 perfect_profile ?_).1⟩
  intro q hqmem
  rw [hlist] at hqmem
  have hq1 : q = 1 := by simpa using hqmem
  simp [hq1]

/-- Claim C7: for every decodable (non-empty rectangular) image,
assess_image_quality is the unweighted average of the sharpness score
min(1, v/500) (v the variance of the discrete Laplacian of the grayscale
conversion) and the brightness score min(1, m/255) (m the mean gray
value); it returns 0 on a processing error; and on a fully uniform gray
image of value v in [0,255] the sharpness score is 0 and the brightness
score v/255, so the result is (v/255)/2. -/
theorem assess_image_quality_spec :
    (∀ img, validImage img = true →
      assess_image_quality img =
        (min 1 (matVar (laplacian (bgr_to_gray img)) / 500)
          + min 1 (matMean (bgr_to_gray img) / 255)) / 2)
    ∧ (∀ img, validImage img = false → assess_image_quality img = 0)
    ∧ (∀ (m n : Nat) (v : ℚ), 0 < m → 0 < n → 0 ≤ v → v ≤ 255 →
        assess_image_quality (uniformBGR m n v) = (v / 255) / 2) := by
  refine ⟨?_, ?_, ?_⟩
  · intro img h
    unfold assess_image_quality
    rw [if_pos h]
  · intro img h
    unfold assess_image_quality
    rw [if_neg (by rw [h]; exact Bool.false_ne_true)]
  · intro m n v hm hn hv0 hv255
    have hgray : bgr_to_gray (uniformBGR m n v) =
        List.replicate m (List.replicate n v) := by
      unfold bgr_to_gray uniformBGR
      rw [List.map_replicate, List.map_replicate]
      have hpix : bgr_to_gray_pixel (v, v, v) = v := by
        unfold bgr_to_gray_pixel
        field_simp
        ring
      rw [hpix]
    have hvalid : validImage (uniformBGR m n v) = true := by
      obtain ⟨m', rfl⟩ : ∃ m', m = m' + 1 := ⟨m - 1, by omega⟩
      obtain ⟨n', rfl⟩ : ∃ n', n = n' + 1 := ⟨n - 1, by omega⟩
      unfold uniformBGR validImage
      simp only [List.replicate_succ, List.isEmpty_cons, List.headD_cons,
        Bool.not_false, Bool.true_and, List.all_cons, List.all_eq_true,
        Bool.and_eq_true, beq_iff_eq]
      exact ⟨trivial, fun row hrow => by rw [List.eq_of_mem_replicate hrow]⟩
    unfold assess_image_quality
    rw [if_pos hvalid, hgray, laplacian_uniform m n v hm hn, matVar_uniform_zero,
      matMean_uniform m n v hm hn]
    have hz : min (1 : ℚ) (0 / 500) = 0 := by norm_num
    have hb : min (1 : ℚ) (v / 255) = v / 255 :=
      min_eq_right ((div_le_one (by norm_num)).mpr hv255)
    rw [hz, hb]
    ring

/-- Witness for C7: a 1x1 uniform image of gray value 100 scores
(100/255)/2; the empty list is not a valid image and scores 0; the same
1x1 image instantiates the general formula. -/
theorem assess_image_quality_spec_witness :
    assess_image_quality (uniformBGR 1 1 100) = ((100 : ℚ) / 255) / 2
      ∧ assess_image_quality [] = 0
      ∧ assess_image_quality (uniformBGR 1 1 100) =
          (min 1 (matVar (laplacian (bgr_to_gray (uniformBGR 1 1 100))) / 500)
            + min 1 (matMean (bgr_to_gray (uniformBGR 1 1 100)) / 255)) / 2 :=
  ⟨assess_image_quality_spec.2.2 1 1 100 (by norm_num) (by norm_num)
      (by norm_num) (by norm_num),
    assess_image_quality_spec.2.1 [] (by decide),
    assess_image_quality_spec.1 (uniformBGR 1 1 100) (by decide)⟩

/-- analyze_phone never raises on a string (non-None) phone value. -/
theorem analyze_phone_ok_of_some (matchFn : String → Bool) (useApis : Bool)
    (s : String) : ∃ pa, analyze_phone matchFn useApis (some s) = Except.ok pa := by
  unfold analyze_phone
  by_cases h : matchFn s <;> by_cases hu : useApis <;> simp [h, hu]

/-- Claim C4 counterexample: a record whose phone key holds None (exactly
what parse_profile produces for a page without phone markup) makes the
phone branch raise TypeError, which analyze_profile does not catch: the
enrichment aborts and no authenticity score is produced. -/
theorem analyze_profile_phone_none_error :
    analyze_profile Unit false (fun _ => none) (fun _ => none) (fun _ => 0)
      (fun _ => false) none_phone_profile =
      Except.error "TypeError: expected string or bytes-like object" := rfl

/-- Claim C4 (amended): the image branch is tolerant per image and the
location branch cannot raise, but the phone branch has no exception
handler; provided the phone value is not None whenever the phone key is
present, analyze_profile returns an enriched profile that contains an
authenticity score. -/
theorem analyze_profile_partial_tolerance :
    ∀ (Img : Type) (useApis : Bool) (download : String → Option Img)
      (detect : Img → Option (List ℚ)) (assess : Img → ℚ)
      (matchFn : String → Bool) (p : Profile), p.phone ≠ some none →
      ∃ ep, analyze_profile Img useApis download detect assess matchFn p =
          Except.ok ep ∧ ep.authenticity_score.isSome = true := by
  intro Img useApis download detect assess matchFn p hp
  unfold analyze_profile
  rcases hph : p.phone with _ | v
  · simp only [hph]
    exact ⟨_, rfl, rfl⟩
  · rcases v with _ | s
    · exact absurd hph hp
    · obtain ⟨pa, hpa⟩ := analyze_phone_ok_of_some matchFn useApis s
      simp only [hph, hpa, Except.map]
      exact ⟨_, rfl, rfl⟩

/-- Witness for C4 (amended): a record with a string phone value
enriches to an ok result carrying a score, even though every image
download fails and the regex rejects the phone. -/
theorem analyze_profile_partial_tolerance_witness :
    ∃ ep, analyze_profile Unit false (fun _ => none) (fun _ => none) (fun _ => 0)
        (fun _ => false)
        { name := some (some "Jane"), phone := some (some "5551234567"),
          location := some none, images := some ["http://img/a.jpg"] } =
        Except.ok ep ∧ ep.authenticity_score.isSome = true :=
  analyze_profile_partial_tolerance Unit false (fun _ => none) (fun _ => none)
    (fun _ => 0) (fun _ => false) _ (by decide)

/-- Claim C8: a record whose only image fails to download yields an image
analysis with no detected face, no encodings and an empty quality list;
the failure is absorbed per image, so analyze_images does not raise
(it is a total function of its parameters in this embedding). -/
theorem analyze_images_failed_download :
    ∀ (Img : Type) (useApis : Bool) (download : String → Option Img)
      (detect : Img → Option (List ℚ)) (assess : Img → ℚ) (url : String),
      download url = none →
      (analyze_images Img useApis download detect assess [url]).face_detected = false
        ∧ (analyze_images Img useApis download detect assess [url]).image_quality = []
        ∧ (analyze_images Img useApis download detect assess [url]).face_encodings = [] := by
  intro Img useApis download detect assess url h
  simp [analyze_images, analyze_images_loop, analyze_images_step, h]

/-- Witness for C8: a concrete always-failing downloader. -/
theorem analyze_images_failed_download_witness :
    (analyze_images Unit false (fun _ => none) (fun _ => none) (fun _ => 0)
        ["http://img/broken.jpg"]).face_detected = false
      ∧ (analyze_images Unit false (fun _ => none) (fun _ => none) (fun _ => 0)
          ["http://img/broken.jpg"]).image_quality = []
      ∧ (analyze_images Unit false (fun _ => none) (fun _ => none) (fun _ => 0)
          ["http://img/broken.jpg"]).face_encodings = [] :=
  analyze_images_failed_download Unit false (fun _ => none) (fun _ => none)
    (fun _ => 0) "http://img/broken.jpg" rfl

/-- face_update preserves the flag/encodings invariant. -/
theorem face_update_face_iff (Img : Type) (detect : Img → Option (List ℚ))
    (a : ImageAnalysis) (img : Img)
    (h : a.face_detected = true ↔ a.face_encodings ≠ []) :
    ((face_update Img detect a img).face_detected = true
      ↔ (face_update Img detect a img).face_encodings ≠ []) := by
  unfold face_update
  cases hdet : detect img with
  | none => exact h
  | some enc => simp

/-- quality_update does not touch the face fields. -/
theorem quality_update_face_iff (Img : Type) (assess : Img → ℚ)
    (a : ImageAnalysis) (img : Img)
    (h : a.face_detected = true ↔ a.face_encodings ≠ []) :
    ((quality_update Img assess a img).face_detected = true
      ↔ (quality_update Img assess a img).face_encodings ≠ []) := h

/-- reverse_update does not touch the face fields. -/
theorem reverse_update_face_iff (useApis : Bool) (a : ImageAnalysis)
    (url : String)
    (h : a.face_detected = true ↔ a.face_encodings ≠ []) :
    ((reverse_update useApis a url).face_detected = true
      ↔ (reverse_update useApis a url).face_encodings ≠ []) := by
  unfold reverse_update
  cases useApis
  · exact h
  · exact h

/-- One loop iteration of analyze_images preserves the flag/encodings
invariant. -/
theorem analyze_images_step_face_iff (Img : Type) (useApis : Bool)
    (download : String → Option Img) (detect : Img → Option (List ℚ))
    (assess : Img → ℚ) (a : ImageAnalysis) (url : String)
    (h : a.face_detected = true ↔ a.face_encodings ≠ []) :
    ((analyze_images_step Img useApis download detect assess a url).face_detected = true
      ↔ (analyze_images_step Img useApis download detect assess a url).face_encodings ≠ []) := by
  unfold analyze_images_step
  cases hd : download url with
  | none => exact h
  | some img =>
    exact reverse_update_face_iff useApis _ url
      (quality_update_face_iff Img assess _ img
        (face_update_face_iff Img detect a img h))

/-- The analyze_images loop preserves the flag/encodings invariant. -/
theorem analyze_images_loop_face_iff (Img : Type) (useApis : Bool)
    (download : String → Option Img) (detect : Img → Option (List ℚ))
    (assess : Img → ℚ) :
    ∀ (urls : List String) (a : ImageAnalysis),
      (a.face_detected = true ↔ a.face_encodings ≠ []) →
      ((analyze_images_loop Img useApis download detect assess urls a).face_detected = true
        ↔ (analyze_images_loop Img useApis download detect assess urls a).face_encodings ≠ []) := by
  intro urls
  induction urls with
  | nil => intro a h; simpa [analyze_images_loop] using h
  | cons url rest ih =>
    intro a h
    simp only [analyze_images_loop]
    exact ih _ (analyze_images_step_face_iff Img useApis download detect assess a url h)

/-- Claim C10: for every list of image URLs, the analysis returned by
analyze_images has face_detected = true exactly when face_encodings is
non-empty: the flag is set exactly when an encoding is appended, and an
encoding is appended exactly when a face is found in a successfully
downloaded image. -/
theorem face_detected_iff_encodings :
    ∀ (Img : Type) (useApis : Bool) (download : String → Option Img)
      (detect : Img → Option (List ℚ)) (assess : Img → ℚ) (urls : List String),
      ((analyze_images Img useApis download detect assess urls).face_detected = true
        ↔ (analyze_images Img useApis download detect assess urls).face_encodings ≠ []) := by
  intro Img useApis download detect assess urls
  unfold analyze_images
  exact analyze_images_loop_face_iff Img useApis download detect assess urls _ (by simp)

end DataSnatch
